import Mathlib

/-!
Verification of `caffe2/python/layers/feature_sparse_to_dense.py`
(class `FeatureSparseToDense`).

The file is embedded shallowly: the constructor becomes `FeatureSparseToDense.init`,
an `Except`-valued function over the list of input specs; `add_ops` becomes a pure
function emitting the list of graph operators; `get_metadata` becomes a pure
function over the specs and the constructed output schema. Blob references are
modelled by the string that the source passes to `get_next_blob_reference` /
`NextScopedBlob`; the input record's blobs are an explicit parameter.
-/

set_option autoImplicit false

namespace Caffe2

/-- Numpy dtypes used by this layer: `np.float32`, `np.int32`, `np.int64`. -/
inductive DType where
  | float32
  | int32
  | int64
  deriving DecidableEq, Repr

/-- `schema.Scalar((dtype, shape), blob)`; `schema.Scalar(dtype, blob)` has empty shape. -/
structure ScalarSchema where
  dtype : DType
  shape : List Nat
  blob : String
  deriving DecidableEq, Repr

/-- A field of the output schema: either a `schema.Scalar` or a `schema.Struct`
of named scalars (the only shapes of field this layer builds). -/
inductive Field where
  | Scalar (s : ScalarSchema)
  | Struct (fields : List (String × ScalarSchema))
  deriving DecidableEq, Repr

/-- `schema.FeatureSpec`: the `feature_type` tag, the feature names and the
feature ids of one sparse feature group. -/
structure FeatureSpecs where
  feature_type : String
  feature_names : List String
  feature_ids : List Int
  deriving DecidableEq, Repr

/-- `input_specs`: a sequence of (field name, feature specs) pairs. -/
abbrev InputSpecs := List (String × FeatureSpecs)

/-- The output schema `schema.Struct(*outputs)`: named fields in order. -/
abbrev OutputSchema := List (String × Field)

/-- An error raised by the constructor: the `assert` on
`len(feature_names) == len(feature_ids)`, or the `TypeError` for an
unsupported `feature_type` tag. -/
inductive CtorError where
  | assertError
  | typeError (tag : String)
  deriving DecidableEq, Repr

namespace FeatureSparseToDense

/-- The class attribute `_known_types = ['FLOAT', 'ID_LIST']`. -/
def _known_types : List String := ["FLOAT", "ID_LIST"]

/-- One iteration of the constructor's loop over `input_specs`: first the
`assert len(feature_names) == len(feature_ids)`, then the three-way dispatch
on `feature_type`, building the output field appended for this entry, else
the `TypeError`. -/
def mkOutput (field : String) (fs : FeatureSpecs) : Except CtorError (String × Field) :=
  if fs.feature_names.length = fs.feature_ids.length then
    if fs.feature_type = "FLOAT" then
      Except.ok (field,
        Field.Scalar ⟨DType.float32, [fs.feature_ids.length], field ++ "_output"⟩)
    else if fs.feature_type = "ID_LIST" then
      Except.ok (field,
        Field.Struct
          [("ranges", ⟨DType.int32, [fs.feature_ids.length, 2], field ++ "_ranges"⟩),
           ("values", ⟨DType.int64, [], field ++ "_values"⟩)])
    else if fs.feature_type = "ID_SCORE_LIST" then
      Except.ok (field,
        Field.Struct
          [("ranges", ⟨DType.int32, [fs.feature_ids.length, 2], field ++ "_ranges"⟩),
           ("ids", ⟨DType.int64, [], field ++ "_ids"⟩),
           ("scores", ⟨DType.float32, [], field ++ "_scores"⟩)])
    else
      Except.error (CtorError.typeError fs.feature_type)
  else
    Except.error CtorError.assertError

/-- The constructor `FeatureSparseToDense.__init__`, restricted to the data it
computes: the loop over `input_specs` building `outputs`, raising on the first
failing entry, and the resulting `output_schema = schema.Struct(*outputs)`. -/
def init : InputSpecs → Except CtorError OutputSchema
  | [] => Except.ok []
  | (field, fs) :: rest =>
      match mkOutput field fs with
      | Except.error e => Except.error e
      | Except.ok out =>
          match init rest with
          | Except.error e => Except.error e
          | Except.ok outs => Except.ok (out :: outs)

/-- Indexing the output struct by field name, `self.output_schema[field]`:
first field whose name matches. -/
def getField : OutputSchema → String → Option Field
  | [], _ => none
  | (f, fld) :: rest, field => if f = field then some fld else getField rest field

end FeatureSparseToDense

/-- `field_blobs()` of a schema field: the blobs of its scalars, in order. -/
def Field.field_blobs : Field → List String
  | Field.Scalar s => [s.blob]
  | Field.Struct fields => fields.map (fun p => p.2.blob)

/-- `field_types()` of a schema field: the (dtype, shape) pairs of its scalars,
in order. -/
def Field.field_types : Field → List (DType × List Nat)
  | Field.Scalar s => [(s.dtype, s.shape)]
  | Field.Struct fields => fields.map (fun p => (p.2.dtype, p.2.shape))

/-- The blob of a schema field that is a scalar, `self.output_schema[field]()`. -/
def Field.scalarBlob : Field → Option String
  | Field.Scalar s => some s.blob
  | Field.Struct _ => none

/-- The blob of a named scalar inside a struct field, e.g.
`self.output_schema[field].ranges()`. -/
def Field.subBlob : Field → String → Option String
  | Field.Scalar _, _ => none
  | Field.Struct fields, sub =>
      match fields.find? (fun p => p.1 = sub) with
      | some p => some p.2.blob
      | none => none

/-- The blobs of `self.input_record[field]`: `keys()`, `values()`, `lengths()`,
`values.lengths()`, `values.items()`, `values.keys()`, `values.values()`. -/
structure RecordField where
  keys : String
  values : String
  lengths : String
  values_lengths : String
  values_items : String
  values_keys : String
  values_values : String
  deriving DecidableEq, Repr

/-- A graph operator emitted on the net by `add_ops`. -/
inductive Op where
  | SparseToDenseMask (inputs : List String) (outputs : List String) (mask : List Int)
  | LengthsToRanges (input : String) (output : String)
  | Alias (input : String) (output : String)
  deriving DecidableEq, Repr

namespace FeatureSparseToDense

/-- `self.zero = model.global_constants['ZERO']`. -/
def zero : String := "ZERO"

/-- `self.zero_range = model.global_constants['ZERO_RANGE']`. -/
def zero_range : String := "ZERO_RANGE"

/-- The operators `add_ops` emits for one entry of `input_specs`: a
`SparseToDenseMask` for `FLOAT`; a `LengthsToRanges`, a `SparseToDenseMask`
and an `Alias` for `ID_LIST`; a `LengthsToRanges`, a `SparseToDenseMask` and
two `Alias`es for `ID_SCORE_LIST`; nothing otherwise (no `else` branch). -/
def addOpsEntry (record : String → RecordField) (output_schema : OutputSchema)
    (field : String) (fs : FeatureSpecs) : List Op :=
  if fs.feature_type = "FLOAT" then
    [Op.SparseToDenseMask
      [(record field).keys, (record field).values, zero, (record field).lengths]
      [((getField output_schema field).bind Field.scalarBlob).getD ""]
      fs.feature_ids]
  else if fs.feature_type = "ID_LIST" then
    [Op.LengthsToRanges (record field).values_lengths "id_list_ranges",
     Op.SparseToDenseMask
      [(record field).keys, "id_list_ranges", zero_range, (record field).lengths]
      [((getField output_schema field).bind (Field.subBlob · "ranges")).getD ""]
      fs.feature_ids,
     Op.Alias (record field).values_items
      (((getField output_schema field).bind (Field.subBlob · "values")).getD "")]
  else if fs.feature_type = "ID_SCORE_LIST" then
    [Op.LengthsToRanges (record field).values_lengths "id_score_list_ranges",
     Op.SparseToDenseMask
      [(record field).keys, "id_score_list_ranges", zero_range, (record field).lengths]
      [((getField output_schema field).bind (Field.subBlob · "ranges")).getD ""]
      fs.feature_ids,
     Op.Alias (record field).values_keys
      (((getField output_schema field).bind (Field.subBlob · "ids")).getD ""),
     Op.Alias (record field).values_values
      (((getField output_schema field).bind (Field.subBlob · "scores")).getD "")]
  else
    []

/-- `add_ops`: the loop over `input_specs`, emitting the operators of each
entry in order. -/
def add_ops (record : String → RecordField) (output_schema : OutputSchema) :
    InputSpecs → List Op
  | [] => []
  | (field, fs) :: rest =>
      addOpsEntry record output_schema field fs ++ add_ops record output_schema rest

end FeatureSparseToDense

/-- The dictionary of one `get_metadata` entry: keys `type`, `names`, `ids`,
and `cardinality` present exactly when the source sets it. -/
structure MetaDict where
  type : String
  names : List String
  ids : List Int
  cardinality : Option Nat
  deriving DecidableEq, Repr

namespace FeatureSparseToDense

/-- `get_metadata`: one triple per entry of `input_specs`, in order — the
dict of `type`/`names`/`ids` (plus `cardinality = 1` for `FLOAT`), the field's
`field_blobs()` and its `field_types()`. -/
def get_metadata (specs : InputSpecs) (output_schema : OutputSchema) :
    List (MetaDict × List String × List (DType × List Nat)) :=
  specs.map (fun p =>
    let fld := (getField output_schema p.1).getD (Field.Struct [])
    (⟨p.2.feature_type, p.2.feature_names, p.2.feature_ids,
      if p.2.feature_type = "FLOAT" then some 1 else none⟩,
     fld.field_blobs, fld.field_types))

end FeatureSparseToDense

/-- The operator invoked by an emitted op. -/
inductive OpKind where
  | sparseToDenseMask
  | lengthsToRanges
  | aliasOp
  deriving DecidableEq, Repr

/-- Which operator an emitted op invokes. -/
def Op.kind : Op → OpKind
  | Op.SparseToDenseMask _ _ _ => OpKind.sparseToDenseMask
  | Op.LengthsToRanges _ _ => OpKind.lengthsToRanges
  | Op.Alias _ _ => OpKind.aliasOp

/-- The `mask` keyword argument of an emitted op, when it takes one. -/
def Op.maskArg : Op → Option (List Int)
  | Op.SparseToDenseMask _ _ mask => some mask
  | Op.LengthsToRanges _ _ => none
  | Op.Alias _ _ => none

namespace FeatureSparseToDense

/-- The three tags the constructor's dispatch handles. -/
def knownTag (t : String) : Bool :=
  t == "FLOAT" || t == "ID_LIST" || t == "ID_SCORE_LIST"

/-- Tag `t` is accepted by the constructor: `__init__` completes on an input
spec carrying `t` (with names and ids both empty, so the length assert is
moot). -/
def acceptsTag (t : String) : Prop :=
  ∃ outs, init [("f", ⟨t, [], []⟩)] = Except.ok outs

theorem mkOutput_ok_elim (f : String) (fs : FeatureSpecs) (out : String × Field)
    (h : mkOutput f fs = Except.ok out) :
    fs.feature_names.length = fs.feature_ids.length ∧
      knownTag fs.feature_type = true ∧ out.1 = f := by
  unfold mkOutput at h
  split at h
  next hlen =>
    split at h
    next hty => exact ⟨hlen, by simp [knownTag, hty], by cases h; rfl⟩
    next =>
      split at h
      next hty => exact ⟨hlen, by simp [knownTag, hty], by cases h; rfl⟩
      next =>
        split at h
        next hty => exact ⟨hlen, by simp [knownTag, hty], by cases h; rfl⟩
        next => cases h
  next => cases h

theorem mkOutput_ok_of (f : String) (fs : FeatureSpecs)
    (hlen : fs.feature_names.length = fs.feature_ids.length)
    (ht : knownTag fs.feature_type = true) :
    ∃ out, mkOutput f fs = Except.ok out := by
  cases hmk : mkOutput f fs with
  | ok out => exact ⟨out, rfl⟩
  | error e =>
      exfalso
      simp only [knownTag, Bool.or_eq_true, beq_iff_eq] at ht
      rcases ht with (h | h) | h <;> simp [mkOutput, hlen, h] at hmk

theorem mkOutput_assert_of (f : String) (fs : FeatureSpecs)
    (hlen : fs.feature_names.length ≠ fs.feature_ids.length) :
    mkOutput f fs = Except.error CtorError.assertError := by
  simp [mkOutput, hlen]

theorem mkOutput_typeError_of (f : String) (fs : FeatureSpecs)
    (hlen : fs.feature_names.length = fs.feature_ids.length)
    (ht : knownTag fs.feature_type = false) :
    mkOutput f fs = Except.error (CtorError.typeError fs.feature_type) := by
  simp only [knownTag, Bool.or_eq_false_iff, beq_eq_false_iff_ne, ne_eq] at ht
  simp [mkOutput, hlen, ht.1.1, ht.1.2, ht.2]

theorem init_cons (f : String) (fs : FeatureSpecs) (rest : InputSpecs) :
    init ((f, fs) :: rest) =
      match mkOutput f fs with
      | Except.error e => Except.error e
      | Except.ok out =>
          match init rest with
          | Except.error e => Except.error e
          | Except.ok outs => Except.ok (out :: outs) := rfl

theorem init_get? (specs : InputSpecs) (outs : OutputSchema)
    (h : init specs = Except.ok outs) (i : Nat) :
    outs[i]? = (specs[i]?).bind (fun p => (mkOutput p.1 p.2).toOption) := by
  induction specs generalizing outs i with
  | nil =>
      simp only [init] at h
      cases h
      simp
  | cons p rest ih =>
      obtain ⟨field, fs⟩ := p
      simp only [init] at h
      cases hmk : mkOutput field fs with
      | error e => rw [hmk] at h; cases h
      | ok out =>
          rw [hmk] at h
          cases hrest : init rest with
          | error e => rw [hrest] at h; cases h
          | ok outs' =>
              rw [hrest] at h
              cases h
              cases i with
              | zero => simp [hmk, Except.toOption]
              | succ j => simpa using ih outs' hrest j

theorem init_length (specs : InputSpecs) (outs : OutputSchema)
    (h : init specs = Except.ok outs) : outs.length = specs.length := by
  induction specs generalizing outs with
  | nil => simp only [init] at h; cases h; rfl
  | cons p rest ih =>
      obtain ⟨field, fs⟩ := p
      simp only [init] at h
      cases hmk : mkOutput field fs with
      | error e => rw [hmk] at h; cases h
      | ok out =>
          rw [hmk] at h
          cases hrest : init rest with
          | error e => rw [hrest] at h; cases h
          | ok outs' =>
              rw [hrest] at h
              cases h
              simpa using ih outs' hrest

theorem init_map_fst (specs : InputSpecs) (outs : OutputSchema)
    (h : init specs = Except.ok outs) :
    outs.map Prod.fst = specs.map Prod.fst := by
  induction specs generalizing outs with
  | nil => simp only [init] at h; cases h; rfl
  | cons p rest ih =>
      obtain ⟨field, fs⟩ := p
      simp only [init] at h
      cases hmk : mkOutput field fs with
      | error e => rw [hmk] at h; cases h
      | ok out =>
          rw [hmk] at h
          cases hrest : init rest with
          | error e => rw [hrest] at h; cases h
          | ok outs' =>
              rw [hrest] at h
              cases h
              simp [(mkOutput_ok_elim field fs out hmk).2.2, ih outs' hrest]

theorem init_ok_of (specs : InputSpecs)
    (h : ∀ p ∈ specs, ∃ out, mkOutput p.1 p.2 = Except.ok out) :
    ∃ outs, init specs = Except.ok outs := by
  induction specs with
  | nil => exact ⟨[], rfl⟩
  | cons p rest ih =>
      obtain ⟨out, hout⟩ := h p (List.mem_cons_self p rest)
      obtain ⟨outs, houts⟩ := ih (fun q hq => h q (List.mem_cons_of_mem p hq))
      exact ⟨out :: outs, by obtain ⟨f, fs⟩ := p; simp only [init]; rw [hout, houts]⟩

theorem init_append_error (pre : InputSpecs) (p : String × FeatureSpecs)
    (rest : InputSpecs) (e : CtorError)
    (hpre : ∀ q ∈ pre, ∃ out, mkOutput q.1 q.2 = Except.ok out)
    (hp : mkOutput p.1 p.2 = Except.error e) :
    init (pre ++ p :: rest) = Except.error e := by
  induction pre with
  | nil =>
      obtain ⟨f, fs⟩ := p
      simp only [List.nil_append, init]
      rw [hp]
  | cons q pre' ih =>
      obtain ⟨out, hq⟩ := hpre q (List.mem_cons_self q pre')
      have hrest := ih (fun r hr => hpre r (List.mem_cons_of_mem _ hr))
      obtain ⟨g, gs⟩ := q
      have hq' : mkOutput g gs = Except.ok out := hq
      rw [List.cons_append, init_cons, hq', hrest]

theorem mkOutput_ne_assert (f : String) (fs : FeatureSpecs)
    (hlen : fs.feature_names.length = fs.feature_ids.length) :
    mkOutput f fs ≠ Except.error CtorError.assertError := by
  unfold mkOutput
  rw [if_pos hlen]
  split
  next => simp
  next =>
    split
    next => simp
    next =>
      split
      next => simp
      next => simp

theorem init_no_assert (specs : InputSpecs)
    (hlen : ∀ p ∈ specs, p.2.feature_names.length = p.2.feature_ids.length) :
    init specs ≠ Except.error CtorError.assertError := by
  induction specs with
  | nil => simp [init]
  | cons q rest ih =>
      obtain ⟨f, fs⟩ := q
      rw [init_cons]
      cases hmk : mkOutput f fs with
      | error e =>
          show Except.error e ≠ Except.error CtorError.assertError
          intro h
          injection h with he
          exact mkOutput_ne_assert f fs (hlen (f, fs) (List.mem_cons_self _ _)) (he ▸ hmk)
      | ok out =>
          cases hrest : init rest with
          | error e =>
              show Except.error e ≠ Except.error CtorError.assertError
              intro h
              injection h with he
              exact ih (fun r hr => hlen r (List.mem_cons_of_mem _ hr)) (he ▸ hrest)
          | ok outs =>
              show Except.ok (out :: outs) ≠ Except.error CtorError.assertError
              simp

theorem init_error_of_violation (specs : InputSpecs) (p : String × FeatureSpecs)
    (hmem : p ∈ specs) (hv : p.2.feature_names.length ≠ p.2.feature_ids.length) :
    ∃ e, init specs = Except.error e := by
  induction specs with
  | nil => cases hmem
  | cons q rest ih =>
      obtain ⟨g, gs⟩ := q
      rw [init_cons]
      cases hmk : mkOutput g gs with
      | error e => exact ⟨e, rfl⟩
      | ok out =>
          have hpr : p ∈ rest := by
            rcases List.mem_cons.mp hmem with h | h
            · exfalso
              have hgl := (mkOutput_ok_elim g gs out hmk).1
              rw [h] at hv
              exact hv hgl
            · exact h
          obtain ⟨e, he⟩ := ih hpr
          exact ⟨e, by rw [he]⟩

theorem init_typeError_of (specs : InputSpecs)
    (hlen : ∀ p ∈ specs, p.2.feature_names.length = p.2.feature_ids.length)
    (p : String × FeatureSpecs) (hmem : p ∈ specs)
    (ht : knownTag p.2.feature_type = false) :
    ∃ t, init specs = Except.error (CtorError.typeError t) := by
  induction specs with
  | nil => cases hmem
  | cons q rest ih =>
      obtain ⟨g, gs⟩ := q
      rw [init_cons]
      cases hk : knownTag gs.feature_type with
      | false =>
          have hmk := mkOutput_typeError_of g gs (hlen (g, gs) (List.mem_cons_self _ _)) hk
          exact ⟨gs.feature_type, by rw [hmk]⟩
      | true =>
          obtain ⟨out, hmk⟩ :=
            mkOutput_ok_of g gs (hlen (g, gs) (List.mem_cons_self _ _)) hk
          have hpr : p ∈ rest := by
            rcases List.mem_cons.mp hmem with h | h
            · exfalso
              subst h
              dsimp only at ht
              rw [hk] at ht
              exact Bool.noConfusion ht
            · exact h
          obtain ⟨t, hrest⟩ := ih (fun r hr => hlen r (List.mem_cons_of_mem _ hr)) hpr
          exact ⟨t, by rw [hmk, hrest]⟩

theorem init_ok_entry (specs : InputSpecs) (outs : OutputSchema)
    (h : init specs = Except.ok outs) (p : String × FeatureSpecs) (hmem : p ∈ specs) :
    ∃ out, mkOutput p.1 p.2 = Except.ok out := by
  induction specs generalizing outs with
  | nil => cases hmem
  | cons q rest ih =>
      obtain ⟨g, gs⟩ := q
      rw [init_cons] at h
      rcases List.mem_cons.mp hmem with hq | hq
      · subst hq
        cases hmk : mkOutput g gs with
        | error e => rw [hmk] at h; cases h
        | ok out => exact ⟨out, rfl⟩
      · cases hmk : mkOutput g gs with
        | error e => rw [hmk] at h; cases h
        | ok out =>
            rw [hmk] at h
            cases hrest : init rest with
            | error e => rw [hrest] at h; cases h
            | ok outs' => exact ih outs' hrest hq

theorem getField_of_nodup (outs : OutputSchema) (i : Nat) (f : String) (fld : Field)
    (hnd : (outs.map Prod.fst).Nodup) (hi : outs[i]? = some (f, fld)) :
    getField outs f = some fld := by
  induction outs generalizing i with
  | nil => simp at hi
  | cons q rest ih =>
      obtain ⟨g, fld'⟩ := q
      simp only [List.map_cons, List.nodup_cons] at hnd
      cases i with
      | zero =>
          simp only [List.getElem?_cons_zero, Option.some_inj] at hi
          cases hi
          simp [getField]
      | succ j =>
          simp only [List.getElem?_cons_succ] at hi
          have hmem : f ∈ rest.map Prod.fst := by
            have := List.getElem?_mem hi
            exact List.mem_map_of_mem Prod.fst this
          have hne : g ≠ f := fun hgf => hnd.1 (hgf ▸ hmem)
          simp only [getField, if_neg hne]
          exact ih j hnd.2 hi

/-- Claim C1, counterexample: an input whose single entry carries the known
tag `FLOAT` (so the claim promises no error) still makes the constructor
raise — the assertion on `len(feature_names) == len(feature_ids)` fails,
because the entry declares one name but no ids. -/
theorem claim1_counterexample :
    knownTag "FLOAT" = true ∧
      init [("f", ⟨"FLOAT", ["a"], []⟩)] = Except.error CtorError.assertError :=
  ⟨by decide, rfl⟩

/-- Claim C1, amended: under the precondition that every entry's
`feature_names` and `feature_ids` have equal length, the constructor raises
`TypeError` whenever some entry carries a tag other than `FLOAT`, `ID_LIST`,
`ID_SCORE_LIST`, and raises no error when every entry carries one of those
three tags. -/
theorem claim1_failure_modes (specs : InputSpecs)
    (hlen : ∀ p ∈ specs, p.2.feature_names.length = p.2.feature_ids.length) :
    ((∃ p ∈ specs, knownTag p.2.feature_type = false) →
      ∃ t, init specs = Except.error (CtorError.typeError t)) ∧
    ((∀ p ∈ specs, knownTag p.2.feature_type = true) →
      ∃ outs, init specs = Except.ok outs) := by
  constructor
  · rintro ⟨p, hmem, ht⟩
    exact init_typeError_of specs hlen p hmem ht
  · intro hall
    exact init_ok_of specs (fun p hp => mkOutput_ok_of p.1 p.2 (hlen p hp) (hall p hp))

/-- Claim C1, witness: an unknown tag makes the constructor raise `TypeError`;
an all-known input constructs successfully. -/
theorem claim1_witness :
    (∃ t, init [("f", ⟨"BAD", [], []⟩)] = Except.error (CtorError.typeError t)) ∧
    (∃ outs, init [("g", ⟨"FLOAT", ["a"], [1]⟩)] = Except.ok outs) :=
  ⟨(claim1_failure_modes [("f", ⟨"BAD", [], []⟩)] (by decide)).1
      ⟨("f", ⟨"BAD", [], []⟩), by decide, by decide⟩,
   (claim1_failure_modes [("g", ⟨"FLOAT", ["a"], [1]⟩)] (by decide)).2 (by decide)⟩

/-- Claim C2, counterexample: the second entry violates
`len(feature_names) == len(feature_ids)`, yet the constructor raises the
`TypeError` for the first entry's unknown tag, not an assertion error — the
loop hits the earlier entry first. -/
theorem claim2_counterexample :
    (["x"] : List String).length ≠ ([] : List Int).length ∧
      init [("a", ⟨"BAD", [], []⟩), ("b", ⟨"FLOAT", ["x"], []⟩)] =
        Except.error (CtorError.typeError "BAD") ∧
      CtorError.typeError "BAD" ≠ CtorError.assertError :=
  ⟨by decide, rfl, by decide⟩

/-- Claim C2, amended: when every entry has names and ids of equal length the
assertion never fails; any input containing a violating entry makes the
constructor raise an error before producing an output schema — specifically
the assertion error whenever every entry preceding the violating one has
equal lengths and a known tag (an earlier bad entry may otherwise raise
first). -/
theorem claim2_length_invariant (specs : InputSpecs) :
    ((∀ p ∈ specs, p.2.feature_names.length = p.2.feature_ids.length) →
      init specs ≠ Except.error CtorError.assertError) ∧
    (∀ p ∈ specs, p.2.feature_names.length ≠ p.2.feature_ids.length →
      ∃ e, init specs = Except.error e) ∧
    (∀ pre p rest, specs = pre ++ p :: rest →
      (∀ q ∈ pre, q.2.feature_names.length = q.2.feature_ids.length ∧
        knownTag q.2.feature_type = true) →
      p.2.feature_names.length ≠ p.2.feature_ids.length →
      init specs = Except.error CtorError.assertError) := by
  refine ⟨init_no_assert specs, ?_, ?_⟩
  · intro p hmem hv
    exact init_error_of_violation specs p hmem hv
  · intro pre p rest hspec hpre hv
    subst hspec
    exact init_append_error pre p rest CtorError.assertError
      (fun q hq => mkOutput_ok_of q.1 q.2 (hpre q hq).1 (hpre q hq).2)
      (mkOutput_assert_of p.1 p.2 hv)

/-- Claim C2, witness: a first entry with two names and one id trips the
assertion. -/
theorem claim2_witness :
    init [("g", ⟨"FLOAT", ["a", "b"], [1]⟩)] = Except.error CtorError.assertError :=
  (claim2_length_invariant [("g", ⟨"FLOAT", ["a", "b"], [1]⟩)]).2.2
    [] ("g", ⟨"FLOAT", ["a", "b"], [1]⟩) [] rfl (by decide) (by decide)

/-- Claim C3: every `FLOAT` entry of `input_specs` is mapped, at its own
position, to a `Scalar` of dtype `float32` with shape
`(len(feature_ids),)` — one dense slot per declared feature id. -/
theorem claim3_float_schema (specs : InputSpecs) (outs : OutputSchema)
    (h : init specs = Except.ok outs) (i : Nat) (f : String) (fs : FeatureSpecs)
    (hi : specs[i]? = some (f, fs)) (hty : fs.feature_type = "FLOAT") :
    outs[i]? = some (f, Field.Scalar
      ⟨DType.float32, [fs.feature_ids.length], f ++ "_output"⟩) := by
  have hg : outs[i]? = (mkOutput f fs).toOption := by
    rw [init_get? specs outs h i, hi]
    rfl
  obtain ⟨out, hmk⟩ := init_ok_entry specs outs h (f, fs) (List.getElem?_mem hi)
  have hlen := (mkOutput_ok_elim f fs out hmk).1
  rw [hg]
  unfold mkOutput
  rw [if_pos hlen, if_pos hty]
  rfl

/-- Claim C3, witness: a concrete `FLOAT` spec with one feature id produces
the one-slot float32 scalar. -/
theorem claim3_witness :
    ([("f", Field.Scalar ⟨DType.float32, [1], "f_output"⟩)] : OutputSchema)[0]? =
      some ("f", Field.Scalar ⟨DType.float32, [1], "f_output"⟩) :=
  claim3_float_schema [("f", ⟨"FLOAT", ["a"], [7]⟩)]
    [("f", Field.Scalar ⟨DType.float32, [1], "f_output"⟩)] rfl 0 "f"
    ⟨"FLOAT", ["a"], [7]⟩ rfl rfl

/-- Claim C4: every `ID_LIST` entry of `input_specs` is mapped, at its own
position, to a `Struct` of exactly two components: `ranges`, an int32 scalar
of shape `(len(feature_ids), 2)`, and `values`, an int64 scalar. -/
theorem claim4_id_list_schema (specs : InputSpecs) (outs : OutputSchema)
    (h : init specs = Except.ok outs) (i : Nat) (f : String) (fs : FeatureSpecs)
    (hi : specs[i]? = some (f, fs)) (hty : fs.feature_type = "ID_LIST") :
    outs[i]? = some (f, Field.Struct
      [("ranges", ⟨DType.int32, [fs.feature_ids.length, 2], f ++ "_ranges"⟩),
       ("values", ⟨DType.int64, [], f ++ "_values"⟩)]) := by
  have hg : outs[i]? = (mkOutput f fs).toOption := by
    rw [init_get? specs outs h i, hi]
    rfl
  obtain ⟨out, hmk⟩ := init_ok_entry specs outs h (f, fs) (List.getElem?_mem hi)
  have hlen := (mkOutput_ok_elim f fs out hmk).1
  have hne : fs.feature_type ≠ "FLOAT" := by rw [hty]; decide
  rw [hg]
  unfold mkOutput
  rw [if_pos hlen, if_neg hne, if_pos hty]
  rfl

/-- Claim C4, witness: a concrete `ID_LIST` spec with two feature ids
produces the ranges/values struct with ranges shape `(2, 2)`. -/
theorem claim4_witness :
    ([("f", Field.Struct
        [("ranges", ⟨DType.int32, [2, 2], "f_ranges"⟩),
         ("values", ⟨DType.int64, [], "f_values"⟩)])] : OutputSchema)[0]? =
      some ("f", Field.Struct
        [("ranges", ⟨DType.int32, [2, 2], "f_ranges"⟩),
         ("values", ⟨DType.int64, [], "f_values"⟩)]) :=
  claim4_id_list_schema [("f", ⟨"ID_LIST", ["a", "b"], [3, 4]⟩)]
    [("f", Field.Struct
        [("ranges", ⟨DType.int32, [2, 2], "f_ranges"⟩),
         ("values", ⟨DType.int64, [], "f_values"⟩)])] rfl 0 "f"
    ⟨"ID_LIST", ["a", "b"], [3, 4]⟩ rfl rfl

/-- Claim C5: every `ID_SCORE_LIST` entry of `input_specs` is mapped, at its
own position, to a `Struct` of exactly three components: `ranges`, an int32
scalar of shape `(len(feature_ids), 2)`; `ids`, an int64 scalar; and
`scores`, a float32 scalar. -/
theorem claim5_id_score_list_schema (specs : InputSpecs) (outs : OutputSchema)
    (h : init specs = Except.ok outs) (i : Nat) (f : String) (fs : FeatureSpecs)
    (hi : specs[i]? = some (f, fs)) (hty : fs.feature_type = "ID_SCORE_LIST") :
    outs[i]? = some (f, Field.Struct
      [("ranges", ⟨DType.int32, [fs.feature_ids.length, 2], f ++ "_ranges"⟩),
       ("ids", ⟨DType.int64, [], f ++ "_ids"⟩),
       ("scores", ⟨DType.float32, [], f ++ "_scores"⟩)]) := by
  have hg : outs[i]? = (mkOutput f fs).toOption := by
    rw [init_get? specs outs h i, hi]
    rfl
  obtain ⟨out, hmk⟩ := init_ok_entry specs outs h (f, fs) (List.getElem?_mem hi)
  have hlen := (mkOutput_ok_elim f fs out hmk).1
  have hne1 : fs.feature_type ≠ "FLOAT" := by rw [hty]; decide
  have hne2 : fs.feature_type ≠ "ID_LIST" := by rw [hty]; decide
  rw [hg]
  unfold mkOutput
  rw [if_pos hlen, if_neg hne1, if_neg hne2, if_pos hty]
  rfl

/-- Claim C5, witness: a concrete `ID_SCORE_LIST` spec with one feature id
produces the ranges/ids/scores struct. -/
theorem claim5_witness :
    ([("f", Field.Struct
        [("ranges", ⟨DType.int32, [1, 2], "f_ranges"⟩),
         ("ids", ⟨DType.int64, [], "f_ids"⟩),
         ("scores", ⟨DType.float32, [], "f_scores"⟩)])] : OutputSchema)[0]? =
      some ("f", Field.Struct
        [("ranges", ⟨DType.int32, [1, 2], "f_ranges"⟩),
         ("ids", ⟨DType.int64, [], "f_ids"⟩),
         ("scores", ⟨DType.float32, [], "f_scores"⟩)]) :=
  claim5_id_score_list_schema [("f", ⟨"ID_SCORE_LIST", ["a"], [9]⟩)]
    [("f", Field.Struct
        [("ranges", ⟨DType.int32, [1, 2], "f_ranges"⟩),
         ("ids", ⟨DType.int64, [], "f_ids"⟩),
         ("scores", ⟨DType.float32, [], "f_scores"⟩)])] rfl 0 "f"
    ⟨"ID_SCORE_LIST", ["a"], [9]⟩ rfl rfl

/-- Claim C6, counterexample: for a `FLOAT` entry `add_ops` emits a single
`SparseToDenseMask` call and nothing else — no `LengthsToRanges` and no
`Alias` call, contradicting "three pre-built graph operators for that
entry's feature type". -/
theorem claim6_counterexample :
    add_ops (fun _ => ⟨"k", "v", "l", "vl", "vi", "vk", "vv"⟩)
      [("f", Field.Scalar ⟨DType.float32, [1], "f_output"⟩)]
      [("f", ⟨"FLOAT", ["a"], [1]⟩)] =
      [Op.SparseToDenseMask ["k", "v", "ZERO", "l"] ["f_output"] [1]] := by rfl

/-- Claim C6, amended: `add_ops` concatenates, entry by entry, operators
drawn from the three pre-built kinds — exactly one `SparseToDenseMask` for a
`FLOAT` entry; `LengthsToRanges`, `SparseToDenseMask`, `Alias` for an
`ID_LIST` entry; `LengthsToRanges`, `SparseToDenseMask` and two `Alias`es
for an `ID_SCORE_LIST` entry — and every emitted `SparseToDenseMask` call
receives its entry's `feature_ids` as the `mask` argument. -/
theorem claim6_add_ops (record : String → RecordField) (sch : OutputSchema)
    (specs : InputSpecs) :
    add_ops record sch specs =
      (specs.map (fun p => addOpsEntry record sch p.1 p.2)).flatten ∧
    ∀ field fs, (field, fs) ∈ specs →
      ((addOpsEntry record sch field fs).map Op.kind =
        (if fs.feature_type = "FLOAT" then [OpKind.sparseToDenseMask]
         else if fs.feature_type = "ID_LIST" then
           [OpKind.lengthsToRanges, OpKind.sparseToDenseMask, OpKind.aliasOp]
         else if fs.feature_type = "ID_SCORE_LIST" then
           [OpKind.lengthsToRanges, OpKind.sparseToDenseMask,
            OpKind.aliasOp, OpKind.aliasOp]
         else [])) ∧
      ∀ op ∈ addOpsEntry record sch field fs,
        op.maskArg = none ∨ op.maskArg = some fs.feature_ids := by
  constructor
  · induction specs with
    | nil => rfl
    | cons p rest ih =>
        obtain ⟨g, gs⟩ := p
        simp [add_ops, ih]
  · intro field fs _hmem
    constructor
    · by_cases h1 : fs.feature_type = "FLOAT"
      · simp [addOpsEntry, h1, Op.kind]
      · by_cases h2 : fs.feature_type = "ID_LIST"
        · simp [addOpsEntry, h1, h2, Op.kind]
        · by_cases h3 : fs.feature_type = "ID_SCORE_LIST"
          · simp [addOpsEntry, h1, h2, h3, Op.kind]
          · simp [addOpsEntry, h1, h2, h3]
    · intro op hop
      by_cases h1 : fs.feature_type = "FLOAT"
      · simp [addOpsEntry, h1] at hop
        subst hop
        exact Or.inr rfl
      · by_cases h2 : fs.feature_type = "ID_LIST"
        · simp [addOpsEntry, h1, h2] at hop
          rcases hop with hop | hop | hop
          · subst hop; exact Or.inl rfl
          · subst hop; exact Or.inr rfl
          · subst hop; exact Or.inl rfl
        · by_cases h3 : fs.feature_type = "ID_SCORE_LIST"
          · simp [addOpsEntry, h1, h2, h3] at hop
            rcases hop with hop | hop | hop | hop
            · subst hop; exact Or.inl rfl
            · subst hop; exact Or.inr rfl
            · subst hop; exact Or.inl rfl
            · subst hop; exact Or.inl rfl
          · simp [addOpsEntry, h1, h2, h3] at hop

/-- Claim C6, witness: an `ID_LIST` entry emits the three operator kinds in
order. -/
theorem claim6_witness :
    (addOpsEntry (fun _ => ⟨"k", "v", "l", "vl", "vi", "vk", "vv"⟩)
        [("g", Field.Struct
            [("ranges", ⟨DType.int32, [1, 2], "g_ranges"⟩),
             ("values", ⟨DType.int64, [], "g_values"⟩)])]
        "g" ⟨"ID_LIST", ["a"], [5]⟩).map Op.kind =
      [OpKind.lengthsToRanges, OpKind.sparseToDenseMask, OpKind.aliasOp] :=
  ((claim6_add_ops (fun _ => ⟨"k", "v", "l", "vl", "vi", "vk", "vv"⟩)
      [("g", Field.Struct
          [("ranges", ⟨DType.int32, [1, 2], "g_ranges"⟩),
           ("values", ⟨DType.int64, [], "g_values"⟩)])]
      [("g", ⟨"ID_LIST", ["a"], [5]⟩)]).2
    "g" ⟨"ID_LIST", ["a"], [5]⟩ (by decide)).1.trans (by decide)

/-- Claim C7: `get_metadata` returns one entry per entry of `input_specs`,
and the `i`-th returned triple holds exactly the `i`-th spec's
`feature_type`, `feature_names` and `feature_ids` in its dict, together with
the blobs and field types of the output-schema field of the `i`-th entry
(field names assumed distinct, as struct indexing is by name). -/
theorem claim7_get_metadata (specs : InputSpecs) (outs : OutputSchema)
    (h : init specs = Except.ok outs)
    (hnd : (specs.map Prod.fst).Nodup) :
    (get_metadata specs outs).length = specs.length ∧
    ∀ (i : Nat) (f : String) (fs : FeatureSpecs), specs[i]? = some (f, fs) →
      ∃ fld : Field, outs[i]? = some (f, fld) ∧
        (get_metadata specs outs)[i]? =
          some (⟨fs.feature_type, fs.feature_names, fs.feature_ids,
                 if fs.feature_type = "FLOAT" then some 1 else none⟩,
                fld.field_blobs, fld.field_types) := by
  refine ⟨by simp [get_metadata], ?_⟩
  intro i f fs hi
  obtain ⟨out, hmk⟩ := init_ok_entry specs outs h (f, fs) (List.getElem?_mem hi)
  have hg : outs[i]? = some out := by
    rw [init_get? specs outs h i, hi]
    show (mkOutput f fs).toOption = some out
    rw [hmk]
    rfl
  obtain ⟨g, fld⟩ := out
  have hgf : g = f := (mkOutput_ok_elim f fs (g, fld) hmk).2.2
  subst hgf
  have hnd' : (outs.map Prod.fst).Nodup := by
    rw [init_map_fst specs outs h]
    exact hnd
  have hgot : getField outs g = some fld := getField_of_nodup outs i g fld hnd' hg
  refine ⟨fld, hg, ?_⟩
  unfold get_metadata
  rw [List.getElem?_map, hi]
  simp [hgot]

/-- Claim C7, witness: a one-entry `FLOAT` input yields the metadata triple
built from its spec and its output field. -/
theorem claim7_witness :
    ∃ fld, ([("f", Field.Scalar ⟨DType.float32, [1], "f_output"⟩)] :
        OutputSchema)[0]? = some ("f", fld) ∧
      (get_metadata [("f", ⟨"FLOAT", ["a"], [1]⟩)]
          [("f", Field.Scalar ⟨DType.float32, [1], "f_output"⟩)])[0]? =
        some (⟨"FLOAT", ["a"], [1],
               if ("FLOAT" : String) = "FLOAT" then some 1 else none⟩,
              fld.field_blobs, fld.field_types) :=
  (claim7_get_metadata [("f", ⟨"FLOAT", ["a"], [1]⟩)]
      [("f", Field.Scalar ⟨DType.float32, [1], "f_output"⟩)] rfl (by decide)).2
    0 "f" ⟨"FLOAT", ["a"], [1]⟩ rfl

/-- Claim C8: the constructor accepts exactly the tags `FLOAT`, `ID_LIST`,
`ID_SCORE_LIST` — a strict superset of the class attribute
`_known_types = ['FLOAT', 'ID_LIST']`, which the dispatch does not consult:
`ID_SCORE_LIST` is accepted though absent from `_known_types`. -/
theorem claim8_accepted_tags :
    (∀ t, acceptsTag t ↔ (t = "FLOAT" ∨ t = "ID_LIST" ∨ t = "ID_SCORE_LIST")) ∧
    (∀ t ∈ _known_types, acceptsTag t) ∧
    acceptsTag "ID_SCORE_LIST" ∧ "ID_SCORE_LIST" ∉ _known_types := by
  have key : ∀ t : String, acceptsTag t ↔ knownTag t = true := by
    intro t
    constructor
    · rintro ⟨outs, h⟩
      obtain ⟨out, hmk⟩ := init_ok_entry _ outs h ("f", ⟨t, [], []⟩)
        (List.mem_singleton.mpr rfl)
      exact (mkOutput_ok_elim _ _ out hmk).2.1
    · intro ht
      exact init_ok_of [("f", ⟨t, [], []⟩)]
        (fun p hp => by
          rw [List.mem_singleton] at hp
          subst hp
          exact mkOutput_ok_of _ _ rfl ht)
  refine ⟨fun t => (key t).trans (by simp [knownTag, or_assoc]), ?_, ?_, ?_⟩
  · intro t ht
    simp only [_known_types, List.mem_cons, List.not_mem_nil, or_false] at ht
    rcases ht with ht | ht <;> subst ht <;> exact (key _).mpr (by decide)
  · exact (key _).mpr (by decide)
  · decide

/-- Claim C8, witness: `ID_SCORE_LIST` is accepted; an arbitrary other tag is
not. -/
theorem claim8_witness : acceptsTag "ID_SCORE_LIST" ∧ ¬acceptsTag "EMBEDDING" :=
  ⟨claim8_accepted_tags.2.2.1,
   fun h => by
     rcases (claim8_accepted_tags.1 "EMBEDDING").mp h with h1 | h1 | h1 <;>
       exact absurd h1 (by decide)⟩

/-- Claim C9: the constructed output schema lists its fields in exactly the
order of `input_specs`, one field per entry, and `get_metadata` follows the
same order, one element per entry. -/
theorem claim9_order (specs : InputSpecs) (outs : OutputSchema)
    (h : init specs = Except.ok outs) :
    outs.map Prod.fst = specs.map Prod.fst ∧
    outs.length = specs.length ∧
    (get_metadata specs outs).length = specs.length ∧
    ∀ i : Nat, ((get_metadata specs outs)[i]?).map
        (fun m : MetaDict × List String × List (DType × List Nat) => m.1.type) =
      (specs[i]?).map (fun p : String × FeatureSpecs => p.2.feature_type) := by
  refine ⟨init_map_fst specs outs h, init_length specs outs h,
    by simp [get_metadata], ?_⟩
  intro i
  unfold get_metadata
  rw [List.getElem?_map]
  cases hi : specs[i]? with
  | none => rfl
  | some p => rfl

/-- Claim C9, witness: a two-entry input yields fields `a` then `b`, in
order. -/
theorem claim9_witness :
    ([("a", Field.Scalar ⟨DType.float32, [1], "a_output"⟩),
      ("b", Field.Struct
        [("ranges", ⟨DType.int32, [2, 2], "b_ranges"⟩),
         ("values", ⟨DType.int64, [], "b_values"⟩)])] : OutputSchema).map Prod.fst =
      ([("a", ⟨"FLOAT", ["n"], [1]⟩),
        ("b", ⟨"ID_LIST", ["x", "y"], [2, 3]⟩)] : InputSpecs).map Prod.fst :=
  (claim9_order
    [("a", ⟨"FLOAT", ["n"], [1]⟩), ("b", ⟨"ID_LIST", ["x", "y"], [2, 3]⟩)]
    [("a", Field.Scalar ⟨DType.float32, [1], "a_output"⟩),
     ("b", Field.Struct
       [("ranges", ⟨DType.int32, [2, 2], "b_ranges"⟩),
        ("values", ⟨DType.int64, [], "b_values"⟩)])] rfl).1

/-- Claim C10: a `get_metadata` entry carries the `cardinality` key (with
value 1) exactly when its spec's `feature_type` is `FLOAT`; `ID_LIST` and
`ID_SCORE_LIST` entries carry none. -/
theorem claim10_cardinality (specs : InputSpecs) (outs : OutputSchema)
    (_h : init specs = Except.ok outs) (i : Nat) (f : String) (fs : FeatureSpecs)
    (hi : specs[i]? = some (f, fs)) :
    ∃ m, (get_metadata specs outs)[i]? = some m ∧
      (m.1.cardinality ≠ none ↔ fs.feature_type = "FLOAT") ∧
      (fs.feature_type = "FLOAT" → m.1.cardinality = some 1) ∧
      (fs.feature_type ≠ "FLOAT" → m.1.cardinality = none) := by
  have hm : (get_metadata specs outs)[i]? =
      some (⟨fs.feature_type, fs.feature_names, fs.feature_ids,
             if fs.feature_type = "FLOAT" then some 1 else none⟩,
            ((getField outs f).getD (Field.Struct [])).field_blobs,
            ((getField outs f).getD (Field.Struct [])).field_types) := by
    unfold get_metadata
    rw [List.getElem?_map, hi]
    rfl
  refine ⟨_, hm, ?_, ?_, ?_⟩
  · by_cases hF : fs.feature_type = "FLOAT" <;> simp [hF]
  · intro hF
    simp [hF]
  · intro hF
    simp [hF]

/-- Claim C10, witness: the `FLOAT` entry carries `cardinality = 1`. -/
theorem claim10_witness :
    ∃ m, (get_metadata [("f", ⟨"FLOAT", ["a"], [1]⟩)]
        [("f", Field.Scalar ⟨DType.float32, [1], "f_output"⟩)])[0]? = some m ∧
      (m.1.cardinality ≠ none ↔ ("FLOAT" : String) = "FLOAT") ∧
      (("FLOAT" : String) = "FLOAT" → m.1.cardinality = some 1) ∧
      (("FLOAT" : String) ≠ "FLOAT" → m.1.cardinality = none) :=
  claim10_cardinality [("f", ⟨"FLOAT", ["a"], [1]⟩)]
    [("f", Field.Scalar ⟨DType.float32, [1], "f_output"⟩)] rfl 0 "f"
    ⟨"FLOAT", ["a"], [1]⟩ rfl

end FeatureSparseToDense

end Caffe2
